import Mathlib

/-!
Verification development for the settlement scraper (src/scraper/scrape.py).

The Python source is shallowly embedded below.  Python strings are modelled as
Lean `String` values; character-level work is done on `String.data` (the list
of characters).  Python string methods (`strip`, `lower`, `in`, `startswith`,
`endswith`, `replace`) are implemented for the ASCII inputs this program
handles.  Python regular-expression searches are implemented as leftmost-match
scanners whose per-position matchers mirror the concrete patterns in the
source.  Python `float` payout values are integral in every pattern the code
can produce, so they are modelled as `Nat`.  The library call
`uuid.uuid5(uuid.NAMESPACE_DNS, s)` is an external pure hash; it is passed in
as an explicit function parameter `h : String → String`.  The current date
(`date.today()`) and the assembly timestamp (`datetime.utcnow()`) are passed
in as explicit parameters `today` and `now`.
-/

namespace Scrape

/-- Python `str.isspace` characters (ASCII set used by `strip` and `\s`). -/
def pyIsSpace (c : Char) : Bool :=
  c = ' ' || c = '\t' || c = '\n' || c = '\r' || c = '\x0b' || c = '\x0c'

/-- Drop leading whitespace from a character list. -/
def stripLead (cs : List Char) : List Char := cs.dropWhile pyIsSpace

/-- Python `str.strip()`: drop leading and trailing whitespace. -/
def pyStrip (cs : List Char) : List Char :=
  ((cs.reverse.dropWhile pyIsSpace).reverse).dropWhile pyIsSpace

/-- Python `str.strip()` on `String`. -/
def stripStr (s : String) : String := String.mk (pyStrip s.data)

/-- Python `str.lower()` (ASCII). -/
def lowerStr (s : String) : String := String.mk (s.data.map Char.toLower)

/-- Substring test on character lists, Python `sub in hay`. -/
def containsSub (hay pat : List Char) : Bool :=
  match hay with
  | [] => pat.isEmpty
  | _ :: t => pat.isPrefixOf hay || containsSub t pat

/-- Python `sub in s` on strings (case-sensitive). -/
def strContains (s sub : String) : Bool := containsSub s.data sub.data

/-- Python `s.startswith(pre)`. -/
def startsWithStr (s pre : String) : Bool := pre.data.isPrefixOf s.data

/-- Case-insensitive literal match: consume `pat` (given lowercase) from the
front of `cs`, comparing lowered characters, returning the rest. -/
def dropLitCI : List Char → List Char → Option (List Char)
  | [], cs => some cs
  | _ :: _, [] => none
  | p :: ps, c :: cs => if p.toLower = c.toLower then dropLitCI ps cs else none

/-- Leftmost-match scanner: try the per-position matcher `f` at every suffix
of the input (including the empty suffix), exactly like `re.search`. -/
def scanOpt {α : Type} (f : List Char → Option α) : List Char → Option α
  | [] => f []
  | cs@(_ :: t) =>
    match f cs with
    | some a => some a
    | none => scanOpt f t

/-- Maximal digit run at the front together with the remainder. -/
def takeDigits (cs : List Char) : List Char × List Char :=
  (cs.takeWhile Char.isDigit, cs.dropWhile Char.isDigit)

/-- Numeric value of a digit string. -/
def digitsVal (ds : List Char) : Nat :=
  ds.foldl (fun a c => a * 10 + (c.toNat - 48)) 0

/-- Collapse every maximal whitespace run to one space, Python
`re.sub(r"\s+", " ", s)`.  The flag records whether the previous character
was part of a whitespace run. -/
def collapseWsAux : Bool → List Char → List Char
  | _, [] => []
  | prev, c :: t =>
    if pyIsSpace c then
      if prev then collapseWsAux true t else ' ' :: collapseWsAux true t
    else c :: collapseWsAux false t

/-- Collapse whitespace runs to single spaces. -/
def collapseWs (cs : List Char) : List Char := collapseWsAux false cs

/-- Replace all non-overlapping occurrences of `pat` by `rep`, Python
`str.replace`.  Fuel-driven so the definition is structural; fuel equal to
the input length is always enough because a nonempty match consumes at
least one character. -/
def replaceFuel : Nat → List Char → List Char → List Char → List Char
  | 0, _, _, hay => hay
  | _ + 1, _, _, [] => []
  | n + 1, pat, rep, hay@(c :: t) =>
    if pat ≠ [] ∧ pat.isPrefixOf hay then
      rep ++ replaceFuel n pat rep (hay.drop pat.length)
    else c :: replaceFuel n pat rep t

/-- Python `hay.replace(pat, rep)` on character lists. -/
def replaceSub (pat rep hay : List Char) : List Char :=
  replaceFuel hay.length pat rep hay

/-- Drop one trailing suffix when present, Python `s[: -len(suffix)]` guarded
by `s.endswith(suffix)`. -/
def stripOneSuffix (suf s : List Char) : List Char :=
  if suf.isSuffixOf s then s.take (s.length - suf.length) else s

/-- Strip leading and trailing hyphens, Python `s.strip("-")`. -/
def stripHyphens (cs : List Char) : List Char :=
  ((cs.reverse.dropWhile (fun c => c = '-')).reverse).dropWhile (fun c => c = '-')

/-- Embeds `slug_from_name` (scrape.py lines 29-37): lowercase and strip the
name, drop the two "class action settlement" suffixes in order, collapse
whitespace, turn separators into hyphens, replace ampersands, and keep only
alphanumerics and hyphens. -/
def slug_from_name (name : String) : String :=
  let s0 := pyStrip (name.data.map Char.toLower)
  let s1 := stripOneSuffix (" - class action settlement").data
    (stripOneSuffix (" class action settlement").data s0)
  let s2 := collapseWs s1
  let s3 := replaceSub (" - ").data ("-").data s2
  let s4 := replaceSub (" ").data ("-").data s3
  let s5 := replaceSub ("&").data ("and").data s4
  let s6 := s5.filter (fun c => c.isAlphanum || c = '-')
  String.mk (stripHyphens s6)

/-- Characters of `hay` strictly before the first occurrence of `pat`,
Python `hay.split(pat)[0]`. -/
def takeUntilSub (pat : List Char) : List Char → List Char
  | [] => []
  | cs@(c :: t) => if pat.isPrefixOf cs then [] else c :: takeUntilSub pat t

/-- Embeds `company_from_name` (scrape.py lines 40-44). -/
def company_from_name (name : String) : String :=
  if strContains name " - " then String.mk (pyStrip (takeUntilSub (" - ").data name.data))
  else stripStr name

/-- At-position matcher for the payout range pattern
`\$?(\d+)\s*-\s*\$?(\d+)`. -/
def matchRangeAt (cs : List Char) : Option (Nat × Nat) :=
  let cs1 := match cs with | '$' :: t => t | _ => cs
  let (d1, r1) := takeDigits cs1
  if d1 = [] then none else
  match r1.dropWhile pyIsSpace with
  | '-' :: r2 =>
    let r2a := r2.dropWhile pyIsSpace
    let r2b := match r2a with | '$' :: t => t | _ => r2a
    let (d2, _) := takeDigits r2b
    if d2 = [] then none else some (digitsVal d1, digitsVal d2)
  | _ => none

/-- Value of the leftmost maximal digit run, which is exactly the capture of
`(?:up\s*to\s*)?\$?(\d+)` under `re.search` (the optional prefixes never
change which digit run is captured first). -/
def firstDigitRun : List Char → Option Nat
  | [] => none
  | c :: t =>
    if c.isDigit then some (digitsVal ((c :: t).takeWhile Char.isDigit))
    else firstDigitRun t

/-- At-position matcher for `\$?(\d+)\s*\+`. -/
def matchPlusAt (cs : List Char) : Option Nat :=
  let cs1 := match cs with | '$' :: t => t | _ => cs
  let (d1, r1) := takeDigits cs1
  if d1 = [] then none else
  match r1.dropWhile pyIsSpace with
  | '+' :: _ => some (digitsVal d1)
  | _ => none

/-- Embeds `parse_payout` (scrape.py lines 47-74): returns
(payout_min, payout_max, payout_display).  The final `$X+` branch is kept
exactly as in the source even though the bare-number branch above it already
matches every cleaned text containing a digit, which makes it unreachable. -/
def parse_payout (text : String) : Option Nat × Option Nat × String :=
  if pyStrip text.data = [] then (none, none, "Varies") else
  let t := pyStrip text.data
  let clean := t.filter (fun c => !(pyIsSpace c || c = ','))
  let display := String.mk t
  match scanOpt matchRangeAt clean with
  | some (a, b) => (some a, some b, display)
  | none =>
    match firstDigitRun clean with
    | some v =>
      if containsSub (t.map Char.toLower) ("up to").data
          || containsSub (t.map Char.toLower) ("max").data then
        (some 0, some v, display)
      else (some v, some v, display)
    | none =>
      match scanOpt matchPlusAt clean with
      | some v => (some v, none, display)
      | none => (none, none, display)

/-- A calendar date (year, month, day). -/
structure Date where
  y : Nat
  m : Nat
  d : Nat
deriving Repr, DecidableEq

/-- Gregorian leap-year test. -/
def isLeap (y : Nat) : Bool := y % 4 = 0 && (y % 100 ≠ 0 || y % 400 = 0)

/-- Length of a month in the given year. -/
def daysInMonth (y m : Nat) : Nat :=
  if m = 2 then (if isLeap y then 29 else 28)
  else if m = 4 || m = 6 || m = 9 || m = 11 then 30
  else 31

/-- Sequential day number of a civil date (days since 0000-03-01, standard
era-based civil calendar formula); models Python `date` subtraction, whose
`.days` is the difference of such day numbers. -/
def ratadie (dt : Date) : Nat :=
  let y := if dt.m ≤ 2 then dt.y - 1 else dt.y
  let era := y / 400
  let yoe := y % 400
  let mp := (dt.m + 9) % 12
  let doy := (153 * mp + 2) / 5 + dt.d - 1
  era * 146097 + yoe * 365 + yoe / 4 - yoe / 100 + doy

/-- At-position matcher for `deadline\s*(\d{1,2}/\d{1,2}/\d{2,4})` (case
insensitive); returns the three captured digit groups.  A run of more than
two digits in a `\d{1,2}` slot fails the position, because every greedy or
backtracked prefix of the run leaves a digit where `/` is required. -/
def matchDeadlineAt (cs : List Char) : Option (List Char × List Char × List Char) :=
  match dropLitCI ("deadline").data cs with
  | none => none
  | some rest0 =>
    let rest := rest0.dropWhile pyIsSpace
    let (d1, r1) := takeDigits rest
    if d1.length = 0 || 2 < d1.length then none else
    match r1 with
    | '/' :: r2 =>
      let (d2, r3) := takeDigits r2
      if d2.length = 0 || 2 < d2.length then none else
      match r3 with
      | '/' :: r4 =>
        let (d3, _) := takeDigits r4
        if d3.length < 2 then none else some (d1, d2, d3.take 4)
      | _ => none
    | _ => none

/-- Python `_strptime` directive `%m`: one or two digits with value 1-12. -/
def monthVal (ds : List Char) : Option Nat :=
  if ds.length = 0 || 2 < ds.length then none
  else
    let v := digitsVal ds
    if 1 ≤ v ∧ v ≤ 12 then some v else none

/-- Python `_strptime` directive `%d`: one or two digits with value 1-31. -/
def dayVal (ds : List Char) : Option Nat :=
  if ds.length = 0 || 2 < ds.length then none
  else
    let v := digitsVal ds
    if 1 ≤ v ∧ v ≤ 31 then some v else none

/-- Python two-digit-year rule for `%y`: 00-68 map to 2000-2068 and 69-99
map to 1969-1999. -/
def resolveShortYear (v : Nat) : Nat := if v ≤ 68 then 2000 + v else 1900 + v

/-- Models `datetime.strptime(g, "%m/%d/%y")` with the `"%m/%d/%Y"` fallback
on the captured group: `%y` requires exactly two year digits, `%Y` exactly
four (with year at least 1), and the assembled date must be a valid calendar
date. -/
def parseGroupDate (g : List Char × List Char × List Char) : Option Date :=
  match monthVal g.1, dayVal g.2.1 with
  | some m, some d =>
    let ys := g.2.2
    let yOpt : Option Nat :=
      if ys.length = 2 then some (resolveShortYear (digitsVal ys))
      else if ys.length = 4 then (if 1 ≤ digitsVal ys then some (digitsVal ys) else none)
      else none
    match yOpt with
    | some y => if d ≤ daysInMonth y m then some ⟨y, m, d⟩ else none
    | none => none
  | _, _ => none

/-- Zero-padded two-digit print of a small number. -/
def pad2 (n : Nat) : String := if n < 10 then "0" ++ toString n else toString n

/-- Python `dt.strftime("%Y-%m-%d")`: month and day zero-padded, year
printed unpadded (CPython on glibc). -/
def dateToStr (dt : Date) : String := toString dt.y ++ "-" ++ pad2 dt.m ++ "-" ++ pad2 dt.d

/-- At-position matcher for `(?:<\s*)?(\d+)\s*Days?\s*Left` (case
insensitive); returns the captured day count. -/
def matchDaysAt (cs : List Char) : Option Nat :=
  let cs1 := match cs with | '<' :: t => t.dropWhile pyIsSpace | _ => cs
  let (ds, r1) := takeDigits cs1
  if ds = [] then none else
  match dropLitCI ("day").data (r1.dropWhile pyIsSpace) with
  | none => none
  | some r2 =>
    let r3 := match r2 with | c :: t => if c.toLower = 's' then t else c :: t | [] => r2
    match dropLitCI ("left").data (r3.dropWhile pyIsSpace) with
    | none => none
    | some _ => some (digitsVal ds)

/-- Embeds `parse_deadline_and_days` (scrape.py lines 77-105).  The source
formats the parsed date with `strftime("%Y-%m-%d")` and reparses it with
`strptime` to compute the fallback day difference from today; that reparse
succeeds exactly when the formatted year has four digits, i.e. when the year
is at least 1000, so the fallback is guarded accordingly. -/
def parse_deadline_and_days (today : Date) (text : String) : Option String × Option Int :=
  if text = "" then (none, none) else
  let dOpt : Option Date := (scanOpt matchDeadlineAt text.data).bind parseGroupDate
  let dateStr : Option String := dOpt.map dateToStr
  let daysPat : Option Nat := scanOpt matchDaysAt text.data
  let days : Option Int :=
    match daysPat with
    | some n => some (Int.ofNat n)
    | none =>
      match dOpt with
      | some dt =>
        if 1000 ≤ dt.y then some (max 0 ((ratadie dt : Int) - (ratadie today : Int)))
        else none
      | none => none
  (dateStr, days)

/-- At-position matcher for `proof\s*required\?\s*<val>` (case insensitive),
with `val` given lowercased. -/
def matchProofAt (val : List Char) (cs : List Char) : Option Unit :=
  match dropLitCI ("proof").data cs with
  | none => none
  | some r1 =>
    match dropLitCI ("required").data (r1.dropWhile pyIsSpace) with
    | none => none
    | some r2 =>
      match r2 with
      | '?' :: r3 =>
        match dropLitCI val (r3.dropWhile pyIsSpace) with
        | none => none
        | some _ => some ()
      | _ => none

/-- Whether `re.search` finds `proof\s*required\?\s*<val>` in the text. -/
def proofMatches (val : String) (text : String) : Bool :=
  (scanOpt (matchProofAt val.data) text.data).isSome

/-- Embeds `parse_proof` (scrape.py lines 108-118): the "no" pattern is
tested first, then "yes", then "n/a"; empty text and no match both give
`none`. -/
def parse_proof (text : String) : Option Bool :=
  if text = "" then none
  else if proofMatches "no" text then some false
  else if proofMatches "yes" text then some true
  else if proofMatches "n/a" text then none
  else none

/-- Embeds `infer_category` (scrape.py lines 121-128). -/
def infer_category (name : String) : String :=
  let n := lowerStr name
  if strContains n "data breach" || strContains n "data privacy" || strContains n "privacy" then
    "Privacy"
  else if ["mortgage", "credit", "bank", "insurance", "401(k)", "investment",
      "robinhood", "order flow"].any (fun x => strContains n x) then "Finance"
  else "Consumer"

/-- Embeds `infer_case_type` (scrape.py lines 131-142). -/
def infer_case_type (name : String) : Option String :=
  let n := lowerStr name
  if strContains n "data breach" then some "Data Breach"
  else if strContains n "ftc" || strContains n "ftc case" then some "FTC Case"
  else if strContains n "antitrust" then some "Antitrust"
  else if strContains n "privacy" then some "Data Privacy"
  else none

/-- Embeds the `MAJOR_BRANDS` set (scrape.py lines 21-26). -/
def MAJOR_BRANDS : List String :=
  ["23andme", "amazon", "google", "facebook", "meta", "apple", "microsoft",
   "capital one", "wells fargo", "robinhood", "doordash", "uber", "lyft",
   "target", "walmart", "nissan", "toyota", "ford", "hyundai", "kia",
   "kaiser", "theranos", "peloton"]

/-- The fixed site root (scrape.py line 17). -/
def BASE_URL : String := "https://www.classaction.org"

/-- One Supabase row, the record shape built by `_row_from_parsed`
(scrape.py lines 165-188). -/
structure Row where
  id : String
  source_id : String
  name : String
  company_name : String
  payout_min : Option Nat
  payout_max : Option Nat
  deadline : Option String
  days_left : Option Int
  description : Option String
  requires_proof : Option Bool
  claim_url : String
  source_url : String
  is_featured : Option Bool
  logo_url : Option String
  created_at : String
  updated_at : String
  case_type : Option String
  payout_display : String
  about_text : Option String
  eligibility : Option String
  category : String
  is_major_brand : Bool
deriving Repr, DecidableEq

/-- Embeds `_row_from_parsed` (scrape.py lines 145-188); the leading
underscore of the Python name is dropped.  `h` models the pure library hash
`uuid.uuid5(uuid.NAMESPACE_DNS, ·)` and `now` the UTC timestamp string.  The
`text` parameter is kept because the source declares it, though its body
never uses it. -/
def row_from_parsed (h : String → String) (now : String)
    (name slug claim_url text : String)
    (payout_display : String) (payout_min payout_max : Option Nat)
    (deadline_str : Option String) (days_left : Option Int)
    (requires_proof : Option Bool) (eligibility : Option String) : Row :=
  let company_name := company_from_name name
  let category := infer_category name
  let case_type := infer_case_type name
  let is_major := MAJOR_BRANDS.contains (lowerStr company_name)
    || MAJOR_BRANDS.any (fun b => strContains (lowerStr name) b)
  let stable_id := h ("classaction.org/" ++ slug)
  { id := stable_id, source_id := slug, name := name, company_name := company_name,
    payout_min := payout_min, payout_max := payout_max, deadline := deadline_str,
    days_left := days_left, description := eligibility, requires_proof := requires_proof,
    claim_url := claim_url, source_url := BASE_URL ++ "/settlements",
    is_featured := none, logo_url := none, created_at := now, updated_at := now,
    case_type := case_type, payout_display := payout_display,
    about_text := eligibility, eligibility := eligibility,
    category := category, is_major_brand := is_major }

/-- Terminal punctuation of the eligibility sentence split. -/
def isTermPunct (c : Char) : Bool := c = '.' || c = '!' || c = '?'

/-- Whether the list starts with a whitespace character. -/
def headIsSpace : List Char → Bool
  | [] => false
  | c :: _ => pyIsSpace c

mutual

/-- Sentence splitter, normal state; `cur` holds the current segment
reversed.  Models `re.split(r"[.!?]\s+", text)`: each match is a terminal
punctuation character followed by a maximal nonempty whitespace run, and
matches are removed from the output. -/
def sentSplitGo (cur : List Char) : List Char → List (List Char)
  | [] => [cur.reverse]
  | c :: t =>
    if isTermPunct c && headIsSpace t then cur.reverse :: sentSplitSkip t
    else sentSplitGo (c :: cur) t

/-- Sentence splitter, whitespace-consuming state right after a match; a
punctuation character followed by whitespace here starts a new match and
yields an empty segment between the two. -/
def sentSplitSkip : List Char → List (List Char)
  | [] => [[]]
  | c :: t =>
    if pyIsSpace c then sentSplitSkip t
    else if isTermPunct c && headIsSpace t then [] :: sentSplitSkip t
    else sentSplitGo [c] t

end

/-- One sentence qualifies when it contains "you may be" or "class members"
lowercased (scrape.py lines 208-211). -/
def qualSent (s : List Char) : Bool :=
  containsSub (s.map Char.toLower) ("you may be").data
    || containsSub (s.map Char.toLower) ("class members").data

/-- Embeds the eligibility extraction of `_parse_card_text` (scrape.py lines
207-213): the first qualifying sentence, stripped; otherwise the stripped
500-character prefix when the text is longer than 200 characters; otherwise
nothing. -/
def eligibilityFromText (text : String) : Option String :=
  match (sentSplitGo [] text.data).find? qualSent with
  | some s => some (String.mk (pyStrip s))
  | none =>
    if 200 < text.length then some (String.mk (pyStrip (text.data.take 500)))
    else none

/-- Stop positions of the lookahead `(?=Deadline|Proof|Required|$)` (case
insensitive; without MULTILINE, `$` also matches just before a final
newline). -/
def payoutStop (cs : List Char) : Bool :=
  (dropLitCI ("deadline").data cs).isSome || (dropLitCI ("proof").data cs).isSome
    || (dropLitCI ("required").data cs).isSome || cs = [] || cs = ['\n']

/-- Lazy capture for `([^\n]+?)`: extend one non-newline character at a time
until the lookahead holds at the capture end. -/
def lazyCap (acc : List Char) : List Char → Option (List Char)
  | [] => none
  | c :: t =>
    if c = '\n' then none
    else if payoutStop t then some (c :: acc).reverse
    else lazyCap (c :: acc) t

/-- Backtracking over the greedy `\s*` between the payout label and the
capture: try consuming k whitespace characters, for k from the maximal run
length down to zero. -/
def payoutCapFrom (rest : List Char) : Nat → Option (List Char)
  | 0 => lazyCap [] rest
  | k + 1 =>
    match lazyCap [] (rest.drop (k + 1)) with
    | some g => some g
    | none => payoutCapFrom rest k

/-- At-position matcher for
`Payout\s*([^\n]+?)(?=Deadline|Proof|Required|$)` (case insensitive with
DOTALL); returns the captured group. -/
def matchPayoutAt (cs : List Char) : Option (List Char) :=
  match dropLitCI ("payout").data cs with
  | none => none
  | some rest => payoutCapFrom rest ((rest.takeWhile pyIsSpace).length)

/-- Output of `_parse_card_text` (the tuple of scrape.py line 191), with
named fields. -/
structure CardFields where
  payout_display : String
  payout_min : Option Nat
  payout_max : Option Nat
  deadline_str : Option String
  days_left : Option Int
  requires_proof : Option Bool
  eligibility : Option String
deriving Repr, DecidableEq

/-- Embeds `_parse_card_text` (scrape.py lines 191-214); the leading
underscore of the Python name is dropped. -/
def parse_card_text (today : Date) (text : String) : CardFields :=
  let payout3 : Option Nat × Option Nat × String :=
    if strContains text "Payout" then
      match scanOpt matchPayoutAt text.data with
      | some g => parse_payout (String.mk g)
      | none => (none, none, "Varies")
    else (none, none, "Varies")
  let dd : Option String × Option Int :=
    if strContains text "Deadline" || strContains text "Days Left" then
      parse_deadline_and_days today text
    else (none, none)
  let days : Option Int :=
    match dd.2 with
    | some n => some n
    | none =>
      if strContains text "Days Left" then (scanOpt matchDaysAt text.data).map Int.ofNat
      else none
  { payout_display := payout3.2.2, payout_min := payout3.1, payout_max := payout3.2.1,
    deadline_str := dd.1, days_left := days,
    requires_proof := parse_proof text, eligibility := eligibilityFromText text }

/-- A parsed document node: an element with attributes and children, or a
text node (BeautifulSoup Tag / NavigableString).  A whole parsed document
is a root element standing for the soup object, whose parent is None. -/
inductive Node where
  | text (s : String) : Node
  | element (tag : String) (attrs : List (String × String)) (children : List Node) : Node

/-- Attribute lookup, `el.get(k)` (the first occurrence wins). -/
def getAttr (attrs : List (String × String)) (k : String) : Option String :=
  (attrs.find? (fun p => p.1 = k)).map (fun p => p.2)

mutual

/-- All text-node strings of a node in document order (the strings
iterator of BeautifulSoup). -/
def nodeStrings : Node → List String
  | .text s => [s]
  | .element _ _ cs => listStrings cs

/-- Text-node strings of a forest in document order. -/
def listStrings : List Node → List String
  | [] => []
  | n :: t => nodeStrings n ++ listStrings t

end

/-- BeautifulSoup `get_text(separator=" ", strip=True)`: strip every
string, drop the ones that become empty, join with single spaces. -/
def getText (n : Node) : String :=
  String.intercalate " " (((nodeStrings n).map stripStr).filter (fun s => s ≠ ""))

/-- BeautifulSoup `get_text()` with default arguments: plain concatenation
of all strings. -/
def getTextRaw (n : Node) : String := String.join (nodeStrings n)

mutual

/-- The (href, raw link text) pairs of a node itself (when it is an `a`
with an href) and of its descendants, in document order. -/
def linksOf : Node → List (String × String)
  | .text _ => []
  | .element tag attrs cs =>
    (if tag = "a" ∧ (getAttr attrs "href").isSome then
      [((getAttr attrs "href").getD "", getTextRaw (Node.element tag attrs cs))]
    else []) ++ linksList cs

/-- Link pairs of a forest in document order. -/
def linksList : List Node → List (String × String)
  | [] => []
  | n :: t => linksOf n ++ linksList t

end

/-- `card.find_all("a", href=True)`: matching descendants of a node (the
node itself is not part of its own search results). -/
def descLinks : Node → List (String × String)
  | .text _ => []
  | .element _ _ cs => linksList cs

mutual

/-- Preorder collection of elements carrying a `data-name` attribute,
paired with the ancestor chain (closest first) at the point of discovery:
the iteration order of `soup.find_all(attrs={"data-name": True})` together
with the parent chain walked by strategy 1. -/
def dnNode (ancs : List Node) : Node → List (List (String × String) × List Node)
  | .text _ => []
  | .element tag attrs cs =>
    (if (getAttr attrs "data-name").isSome then [(attrs, ancs)] else [])
      ++ dnList (Node.element tag attrs cs :: ancs) cs

/-- Strategy-1 candidates of a forest. -/
def dnList (ancs : List Node) : List Node → List (List (String × String) × List Node)
  | [] => []
  | n :: t => dnNode ancs n ++ dnList ancs t

end

/-- Strategy-1 candidates over the whole document: the root element plays
the soup object, which ends every ancestor chain. -/
def dataNameCands : Node → List (List (String × String) × List Node)
  | .text _ => []
  | root@(.element _ _ cs) => dnList [root] cs

mutual

/-- Preorder collection of `h2`/`h3` elements, each paired with its link
pairs and its following siblings: the iteration of
`soup.find_all(["h2", "h3"])` combined with `tag.next_siblings`. -/
def hcTop (n : Node) (rest : List Node) : List (List (String × String) × List Node) :=
  match n with
  | .text _ => []
  | .element tag attrs cs =>
    (if tag = "h2" ∨ tag = "h3" then [(descLinks (Node.element tag attrs cs), rest)] else [])
      ++ hcList cs

/-- Strategy-2 candidates of a forest, where each node knows the rest of
its sibling list. -/
def hcList : List Node → List (List (String × String) × List Node)
  | [] => []
  | n :: rest => hcTop n rest ++ hcList rest

end

/-- Strategy-2 candidates over the whole document. -/
def headingCands : Node → List (List (String × String) × List Node)
  | .text _ => []
  | .element _ _ cs => hcList cs

/-- The first external claim link inside a card: the first descendant link
whose stripped href starts with "http" and does not mention
classaction.org (scrape.py lines 240-245). -/
def claimUrlOf (card : Node) : Option String :=
  ((descLinks card).map (fun p => String.mk (pyStrip p.1.data))).find?
    (fun hr => startsWithStr hr "http" && !(strContains hr "classaction.org"))

/-- One step of the ancestor walk (scrape.py lines 239-247): a candidate
container is accepted when it has an external claim link and its flattened
text has at least 50 characters; it then supplies the card text and link. -/
def cardAccept (card : Node) : Option (String × String) :=
  let text := getText card
  match claimUrlOf card with
  | none => none
  | some url => if text.length < 50 then none else some (text, url)

/-- The ancestor walk of strategy 1 (scrape.py lines 234-247): up to eight
successive parents are tried and the first accepted one wins. -/
def findCard (ancs : List Node) : Option (String × String) :=
  (ancs.take 8).findSome? cardAccept

/-- Shared record assembly of both strategies (scrape.py lines 248-262 and
290-304): parse the card text, normalize the name by appending
" Class Action Settlement" when "Settlement" is absent, and build the row. -/
def assembleRow (h : String → String) (today : Date) (now : String)
    (nm slug url text : String) : Row :=
  let f := parse_card_text today text
  let name := if strContains nm "Settlement" then nm else nm ++ " Class Action Settlement"
  row_from_parsed h now name slug url text f.payout_display f.payout_min f.payout_max
    f.deadline_str f.days_left f.requires_proof f.eligibility

/-- One iteration of the strategy-1 loop (scrape.py lines 228-265) over one
`data-name` element, threading the (rows, seen_slugs) state. -/
def strat1Step (h : String → String) (today : Date) (now : String)
    (st : List Row × List String) (cand : List (String × String) × List Node) :
    List Row × List String :=
  let data_name := String.mk (pyStrip (((getAttr cand.1 "data-name").getD "").data))
  let slugSrc : String :=
    match getAttr cand.1 "data-slug" with
    | some v => if v = "" then slug_from_name data_name else v
    | none => slug_from_name data_name
  let data_slug := String.mk ((pyStrip slugSrc.data).map Char.toLower)
  if data_name = "" ∨ data_slug = "" ∨ data_slug ∈ st.2 then st
  else
    match findCard cand.2 with
    | none => st
    | some tu =>
      (st.1 ++ [assembleRow h today now data_name data_slug tu.2 tu.1], st.2 ++ [data_slug])

/-- The inner link loop of strategy 2 (scrape.py lines 270-279): the first
link of the heading that is external, has a link text of at least five
characters, and whose derived slug is unseen. -/
def strat2Pick (seen : List String) : List (String × String) → Option (String × String × String)
  | [] => none
  | (href0, raw) :: rest =>
    let href := String.mk (pyStrip href0.data)
    if !(startsWithStr href "http") || strContains href "classaction.org" then
      strat2Pick seen rest
    else
      let nm := String.mk (pyStrip raw.data)
      if nm = "" ∨ nm.length < 5 then strat2Pick seen rest
      else
        let slug := slug_from_name nm
        if slug ∈ seen then strat2Pick seen rest
        else some (nm, slug, href)

/-- Whether a node is an `h2` or `h3` element. -/
def isHeading : Node → Bool
  | .element tag _ _ => tag = "h2" || tag = "h3"
  | .text _ => false

/-- Text contribution of one following sibling (scrape.py lines 282-288):
elements contribute their separated stripped text, bare strings their
stripped selves. -/
def sibText : Node → String
  | .text s => stripStr s
  | n => getText n

/-- The card text of strategy 2: contributions of all following siblings up
to the next heading, joined by single spaces (empty pieces included, as
`" ".join` keeps them). -/
def blockText (sibs : List Node) : String :=
  String.intercalate " " ((sibs.takeWhile (fun s => !isHeading s)).map sibText)

/-- One iteration of the strategy-2 loop (scrape.py lines 269-307) over one
heading. -/
def strat2Step (h : String → String) (today : Date) (now : String)
    (st : List Row × List String) (cand : List (String × String) × List Node) :
    List Row × List String :=
  match strat2Pick st.2 cand.1 with
  | none => st
  | some pick =>
    let text := blockText cand.2
    (st.1 ++ [assembleRow h today now pick.1 pick.2.1 pick.2.2 text], st.2 ++ [pick.2.1])

/-- Embeds `scrape_settlements` (scrape.py lines 217-309) on an already
fetched and parsed document `root` (the network fetch and the HTML parser
are external collaborators): strategy 1 over `data-name` elements and then,
when it produced fewer than ten rows, strategy 2 over headings. -/
def scrape_settlements (h : String → String) (today : Date) (now : String)
    (root : Node) : List Row :=
  let st1 := (dataNameCands root).foldl (strat1Step h today now) ([], [])
  let st2 :=
    if st1.1.length < 10 then (headingCands root).foldl (strat2Step h today now) st1
    else st1
  st2.1

/-! ## Invariants of the assembly loops -/

/-- A row built by the shared assembler from some extracted inputs. -/
def BuiltRow (h : String → String) (today : Date) (now : String) (r : Row) : Prop :=
  ∃ nm slug url text, r = assembleRow h today now nm slug url text

/-- A scraper-loop step either leaves the state unchanged or appends one
assembled row whose slug is not yet seen, recording that slug as seen. -/
def StepOK {C : Type} (h : String → String) (today : Date) (now : String)
    (f : (List Row × List String) → C → (List Row × List String)) : Prop :=
  ∀ st c, f st c = st ∨
    ∃ r, BuiltRow h today now r ∧ r.source_id ∉ st.2 ∧
      f st c = (st.1 ++ [r], st.2 ++ [r.source_id])

lemma strat1Step_ok (h : String → String) (today : Date) (now : String) :
    StepOK h today now (strat1Step h today now) := by
  intro st c
  simp only [strat1Step]
  split
  · exact Or.inl rfl
  · rename_i hguard
    split
    · exact Or.inl rfl
    · rename_i tu heq
      right
      exact ⟨_, ⟨_, _, tu.2, tu.1, rfl⟩,
        fun hm => hguard (Or.inr (Or.inr hm)), rfl⟩

lemma strat2Pick_fresh (seen : List String) (links : List (String × String))
    (trip : String × String × String) (hp : strat2Pick seen links = some trip) :
    trip.2.1 ∉ seen := by
  induction links with
  | nil => simp [strat2Pick] at hp
  | cons p rest ih =>
    obtain ⟨href0, raw⟩ := p
    simp only [strat2Pick] at hp
    split at hp
    · exact ih hp
    · split at hp
      · exact ih hp
      · split at hp
        · exact ih hp
        · rename_i hfresh
          cases hp
          exact hfresh

lemma strat2Step_ok (h : String → String) (today : Date) (now : String) :
    StepOK h today now (strat2Step h today now) := by
  intro st c
  simp only [strat2Step]
  split
  · exact Or.inl rfl
  · rename_i pick heq
    right
    exact ⟨_, ⟨pick.1, pick.2.1, pick.2.2, blockText c.2, rfl⟩,
      strat2Pick_fresh st.2 c.1 pick heq, rfl⟩

lemma foldl_stepOK {C : Type} (h : String → String) (today : Date) (now : String)
    (f : (List Row × List String) → C → (List Row × List String))
    (hf : StepOK h today now f) (l : List C) (st : List Row × List String)
    (h1 : ∀ r ∈ st.1, BuiltRow h today now r)
    (h2 : ∀ s ∈ st.1.map Row.source_id, s ∈ st.2)
    (h3 : (st.1.map Row.source_id).Nodup) :
    (∀ r ∈ (l.foldl f st).1, BuiltRow h today now r) ∧
      (∀ s ∈ (l.foldl f st).1.map Row.source_id, s ∈ (l.foldl f st).2) ∧
      ((l.foldl f st).1.map Row.source_id).Nodup := by
  induction l generalizing st with
  | nil => exact ⟨h1, h2, h3⟩
  | cons c t ih =>
    simp only [List.foldl_cons]
    rcases hf st c with heq | ⟨r, hr, hfresh, heq⟩
    · rw [heq]; exact ih st h1 h2 h3
    · rw [heq]
      apply ih
      · intro x hx
        rcases List.mem_append.mp hx with hx | hx
        · exact h1 x hx
        · simp only [List.mem_singleton] at hx
          exact hx ▸ hr
      · intro s hs
        rw [List.map_append] at hs
        rcases List.mem_append.mp hs with hs | hs
        · exact List.mem_append_left _ (h2 s hs)
        · simp only [List.map_cons, List.map_nil, List.mem_singleton] at hs
          exact List.mem_append_right _ (by simp [hs])
      · rw [List.map_append, List.nodup_append]
        refine ⟨h3, by simp, ?_⟩
        intro a ha hb
        simp only [List.map_cons, List.map_nil, List.mem_singleton] at hb
        exact hfresh (hb ▸ h2 a ha)

lemma scrape_inv (h : String → String) (today : Date) (now : String) (root : Node) :
    (∀ r ∈ scrape_settlements h today now root, BuiltRow h today now r) ∧
      ((scrape_settlements h today now root).map Row.source_id).Nodup := by
  have s1 := foldl_stepOK h today now _ (strat1Step_ok h today now) (dataNameCands root)
    ([], []) (by simp) (by simp) (by simp)
  simp only [scrape_settlements]
  split
  · have s2 := foldl_stepOK h today now _ (strat2Step_ok h today now) (headingCands root)
      _ s1.1 s1.2.1 s1.2.2
    exact ⟨s2.1, s2.2.2⟩
  · exact ⟨s1.1, s1.2.2⟩

lemma builtRow_id (h : String → String) (today : Date) (now : String) (r : Row)
    (hr : BuiltRow h today now r) : r.id = h ("classaction.org/" ++ r.source_id) := by
  obtain ⟨nm, slug, url, text, rfl⟩ := hr
  rfl

/-- Substring membership propagates to any left extension. -/
lemma containsSub_append_right (a b pat : List Char) (hb : containsSub b pat = true) :
    containsSub (a ++ b) pat = true := by
  induction a with
  | nil => simpa using hb
  | cons c t ih => simp [containsSub, ih]

lemma builtRow_name (h : String → String) (today : Date) (now : String) (r : Row)
    (hr : BuiltRow h today now r) :
    strContains r.name "Settlement" = true ∧
      r.company_name = company_from_name r.name ∧
      r.category = infer_category r.name ∧
      r.case_type = infer_case_type r.name := by
  obtain ⟨nm, slug, url, text, rfl⟩ := hr
  refine ⟨?_, rfl, rfl, rfl⟩
  show strContains (if strContains nm "Settlement" then nm
    else nm ++ " Class Action Settlement") "Settlement" = true
  by_cases hc : strContains nm "Settlement" = true
  · rw [if_pos hc]; exact hc
  · rw [if_neg hc]
    show containsSub (nm ++ " Class Action Settlement").data ("Settlement").data = true
    rw [String.data_append]
    exact containsSub_append_right _ _ _ (by decide)

/-! ## Concrete runs used by witnesses and counterexamples -/

/-- Stand-in for the external uuid5 hash in concrete runs. -/
def uuid5Sim (s : String) : String := "uuid5:" ++ s

/-- Fixed current date for concrete runs. -/
def today0 : Date := ⟨2026, 1, 1⟩

/-- Fixed assembly timestamp for concrete runs. -/
def now0 : String := "2026-01-01T00:00:00Z"

/-- All-default row used as a harmless head fallback in concrete runs. -/
def row0 : Row :=
  row_from_parsed uuid5Sim now0 "" "" "" "" "Varies" none none none none none none

/-- Concrete document: one data-name card titled "Acme Widget". -/
def docC1a : Node :=
  Node.element "[document]" []
    [Node.element "div" []
      [Node.element "span" [("data-name", "Acme Widget")] [],
       Node.element "a" [("href", "https://claim.example.com/acme")] [Node.text "File a claim"],
       Node.text "Payout Up to $5,000 Deadline 2/17/26 Proof Required? No xxxxxxxxxx"]]

/-- Concrete document: the same card titled "Acme  Widget" (double space),
a different display name that canonicalizes to the same slug. -/
def docC1b : Node :=
  Node.element "[document]" []
    [Node.element "div" []
      [Node.element "span" [("data-name", "Acme  Widget")] [],
       Node.element "a" [("href", "https://claim.example.com/acme")] [Node.text "File a claim"],
       Node.text "Payout Up to $5,000 Deadline 2/17/26 Proof Required? No xxxxxxxxxx"]]

/-- The single row scraped from `docC1a`. -/
def rowC1a : Row := (scrape_settlements uuid5Sim today0 now0 docC1a).headD row0

/-- The single row scraped from `docC1b`. -/
def rowC1b : Row := (scrape_settlements uuid5Sim today0 now0 docC1b).headD row0

/-- C1: the derived record id is a pure deterministic function of the fixed
namespace and the slug.  Any two records produced by any runs that share the
hash function (documents, extraction dates and timestamps may all differ)
and agree on source_id have character-identical ids, and every id is
exactly the hash of the fixed namespace string "classaction.org/" followed
by the slug. -/
theorem c1_identity_deterministic (h : String → String)
    (t1 t2 : Date) (n1 n2 : String) (d1 d2 : Node) (r1 r2 : Row)
    (h1 : r1 ∈ scrape_settlements h t1 n1 d1)
    (h2 : r2 ∈ scrape_settlements h t2 n2 d2)
    (hs : r1.source_id = r2.source_id) :
    r1.id = r2.id ∧ r1.id = h ("classaction.org/" ++ r1.source_id) := by
  have e1 := builtRow_id h t1 n1 r1 ((scrape_inv h t1 n1 d1).1 r1 h1)
  have e2 := builtRow_id h t2 n2 r2 ((scrape_inv h t2 n2 d2).1 r2 h2)
  exact ⟨by rw [e1, e2, hs], e1⟩

/-- Witness for C1: two separate runs over documents whose titles differ
only in spacing produce records with the same slug and identical ids. -/
theorem c1_witness :
    rowC1a.id = rowC1b.id ∧
      rowC1a.id = uuid5Sim ("classaction.org/" ++ rowC1a.source_id) :=
  c1_identity_deterministic uuid5Sim today0 today0 now0 now0 docC1a docC1b rowC1a rowC1b
    (by decide) (by decide) (by decide)

/-- Concrete document: two cards with the same title "Dup Co" but distinct
claim links. -/
def docC2 : Node :=
  Node.element "[document]" []
    [Node.element "div" []
      [Node.element "span" [("data-name", "Dup Co")] [],
       Node.element "a" [("href", "https://first.example.com/a")] [Node.text "File a claim"],
       Node.text "Padding text long enough to pass the fifty character check."],
     Node.element "div" []
      [Node.element "span" [("data-name", "Dup Co")] [],
       Node.element "a" [("href", "https://second.example.com/b")] [Node.text "File a claim"],
       Node.text "Padding text long enough to pass the fifty character check."]]

/-- C2: within one run of scrape_settlements no two records share a
source_id, across both discovery strategies; concretely, when the same slug
occurs twice only the first occurrence produces a record (its claim link is
the first link) and the later occurrence is dropped. -/
theorem c2_source_id_unique (h : String → String) (today : Date) (now : String)
    (root : Node) :
    ((scrape_settlements h today now root).map Row.source_id).Nodup ∧
      (scrape_settlements uuid5Sim today0 now0 docC2).map
        (fun r => (r.source_id, r.claim_url)) =
        [("dup-co", "https://first.example.com/a")] :=
  ⟨(scrape_inv h today now root).2, by decide⟩

/-- Concrete document whose title already ends in a lowercase
"class action settlement" phrase while lacking the capitalized word
"Settlement". -/
def docC10 : Node :=
  Node.element "[document]" []
    [Node.element "div" []
      [Node.element "span" [("data-name", "foo class action settlement")] [],
       Node.element "a" [("href", "https://claim.example.com/foo")] [Node.text "File a claim"],
       Node.text "Padding text long enough to pass the fifty character check."]]

/-- Counterexample for C10: the derived slug is computed from the raw
extracted title, not from the normalized name.  For the title
"foo class action settlement" the assembled record carries the normalized
name with " Class Action Settlement" appended but slug "foo", while the
slug of the normalized name would be "foo-class-action-settlement". -/
theorem c10_counterexample :
    (scrape_settlements uuid5Sim today0 now0 docC10).map
        (fun r => (r.source_id, r.name)) =
      [("foo", "foo class action settlement Class Action Settlement")] ∧
    slug_from_name "foo class action settlement Class Action Settlement" =
      "foo-class-action-settlement" ∧
    ("foo" : String) ≠ "foo-class-action-settlement" :=
  ⟨by decide, by decide, by decide⟩

/-- C10 as amended: every assembled record has a name containing
"Settlement" (when the extracted title lacks it, " Class Action Settlement"
is appended before the record is built), and company_name and the
classification fields are computed from that normalized name; the derived
slug, however, is computed from the raw title before normalization. -/
theorem c10_name_normalized (h : String → String) (today : Date) (now : String)
    (root : Node) (r : Row) (hr : r ∈ scrape_settlements h today now root) :
    strContains r.name "Settlement" = true ∧
      r.company_name = company_from_name r.name ∧
      r.category = infer_category r.name ∧
      r.case_type = infer_case_type r.name :=
  builtRow_name h today now r ((scrape_inv h today now root).1 r hr)

/-- Witness for C10: the record scraped from `docC1a` has the normalized
name and derived fields. -/
theorem c10_witness :
    strContains rowC1a.name "Settlement" = true ∧
      rowC1a.company_name = company_from_name rowC1a.name ∧
      rowC1a.category = infer_category rowC1a.name ∧
      rowC1a.case_type = infer_case_type rowC1a.name :=
  c10_name_normalized uuid5Sim today0 now0 docC1a rowC1a (by decide)

/-- Synthetic container whose flattened text has exactly 140 characters and
which holds an external claim link. -/
def cardC3a : Node :=
  Node.element "div" []
    [Node.element "span" [("data-name", "Case140")] [],
     Node.element "a" [("href", "https://claim.example.com/c140")] [Node.text "go"],
     Node.text (String.mk (List.replicate 137 'x'))]

/-- Document around `cardC3a`. -/
def docC3a : Node := Node.element "[document]" [] [cardC3a]

/-- Synthetic container with exactly 300 characters of text containing both
a payout label and a deadline label, plus an external claim link. -/
def cardC3b : Node :=
  Node.element "div" []
    [Node.element "span" [("data-name", "Case300")] [],
     Node.element "a" [("href", "https://claim.example.com/c300")] [Node.text "go"],
     Node.text (String.mk (("Payout Up to $50 Deadline 2/17/26 ").data
       ++ List.replicate 263 'x'))]

/-- Document around `cardC3b`. -/
def docC3b : Node := Node.element "[document]" [] [cardC3b]

/-- Synthetic container whose flattened text has exactly 900 characters and
which holds an external claim link. -/
def cardC3c : Node :=
  Node.element "div" []
    [Node.element "span" [("data-name", "Case900")] [],
     Node.element "a" [("href", "https://claim.example.com/c900")] [Node.text "go"],
     Node.text (String.mk (List.replicate 897 'x'))]

/-- Document around `cardC3c`. -/
def docC3c : Node := Node.element "[document]" [] [cardC3c]

/-- Synthetic container whose flattened text has only 40 characters. -/
def cardC3d : Node :=
  Node.element "div" []
    [Node.element "span" [("data-name", "Case40")] [],
     Node.element "a" [("href", "https://claim.example.com/c40")] [Node.text "go"],
     Node.text (String.mk (List.replicate 37 'x'))]

/-- Document around `cardC3d`. -/
def docC3d : Node := Node.element "[document]" [] [cardC3d]

set_option maxRecDepth 40000 in
/-- Counterexample for C3: the boundary locator has no 150-character lower
bound, no 800-character upper bound and no keyword requirement.  A
container with 140 characters of text and an external link is accepted (the
claim says it is rejected as too short), and a container with 900
characters is likewise accepted (the claim says it is rejected, triggering
a fallback). -/
theorem c3_counterexample :
    (getText cardC3a).length = 140 ∧
      (scrape_settlements uuid5Sim today0 now0 docC3a).map Row.source_id = ["case140"] ∧
      (getText cardC3c).length = 900 ∧
      (scrape_settlements uuid5Sim today0 now0 docC3c).map Row.source_id = ["case900"] :=
  ⟨by decide, by decide, by decide, by decide⟩

set_option maxRecDepth 40000 in
/-- C3 as amended: an ancestor is accepted exactly when it carries an
external claim link and its flattened text has at least 50 characters; the
300-character container with both labels is accepted, a 40-character
container is rejected, and a title none of whose ancestors qualifies yields
no record at all (there is no keyword test and no separate fallback
container). -/
theorem c3_boundary_amended :
    (getText cardC3b).length = 300 ∧
      strContains (getText cardC3b) "Payout" = true ∧
      strContains (getText cardC3b) "Deadline" = true ∧
      (scrape_settlements uuid5Sim today0 now0 docC3b).map Row.source_id = ["case300"] ∧
      (getText cardC3d).length = 40 ∧
      scrape_settlements uuid5Sim today0 now0 docC3d = [] :=
  ⟨by decide, by decide, by decide, by decide, by decide, by decide⟩

/-- C4: evaluation of `parse_payout`.  At the failing input "$18+" the
bare-number branch matches before the dedicated plus branch (which is
unreachable), so the result is (18, 18, "$18+") instead of the claimed
(18, null, "$18+"); the range, up-to and empty cases behave as claimed. -/
theorem c4_payout_eval :
    parse_payout "$18+" = (some 18, some 18, "$18+") ∧
      parse_payout "$100 - $10,000" = (some 100, some 10000, "$100 - $10,000") ∧
      parse_payout "Up to $5,000" = (some 0, some 5000, "Up to $5,000") ∧
      parse_payout "" = (none, none, "Varies") :=
  ⟨by decide, by decide, by decide, by decide⟩

lemma parseGroupDate_short (g : List Char × List Char × List Char) (dt : Date)
    (hlen : g.2.2.length = 2) (hp : parseGroupDate g = some dt) :
    dt.y = resolveShortYear (digitsVal g.2.2) := by
  unfold parseGroupDate at hp
  split at hp
  · simp only [hlen, if_pos] at hp
    split at hp
    · rename_i heq
      obtain ⟨rfl⟩ := Option.some.injEq _ _ ▸ hp
      rfl
    · exact absurd hp (by simp)
  · exact absurd hp (by simp)

/-- C5: for every text in which the deadline search captures a
two-digit-year date group that parses, and in which no explicit days-left
pattern occurs, the extractor returns the date in canonical form (the year
resolved by the Python short-year convention) together with the day
difference to the current date clamped at zero, which is never negative. -/
theorem c5_deadline_days (today : Date) (text : String)
    (g : List Char × List Char × List Char) (dt : Date)
    (hfind : scanOpt matchDeadlineAt text.data = some g)
    (hshort : g.2.2.length = 2)
    (hparse : parseGroupDate g = some dt)
    (hnodays : scanOpt matchDaysAt text.data = none)
    (hne : text ≠ "") :
    parse_deadline_and_days today text =
      (some (dateToStr dt), some (max 0 ((ratadie dt : Int) - (ratadie today : Int)))) ∧
      dt.y = resolveShortYear (digitsVal g.2.2) ∧
      (0 : Int) ≤ max 0 ((ratadie dt : Int) - (ratadie today : Int)) := by
  have hy := parseGroupDate_short g dt hshort hparse
  have hy1000 : 1000 ≤ dt.y := by
    rw [hy]; unfold resolveShortYear; split <;> omega
  refine ⟨?_, hy, le_max_left 0 _⟩
  unfold parse_deadline_and_days
  rw [if_neg hne]
  simp only [hfind, hnodays, Option.some_bind, hparse, if_pos hy1000]
  rfl

/-- Witness for C5: the text "Deadline 2/17/26" with the current date
2026-01-01 yields the canonical date "2026-02-17" and 47 days left. -/
theorem c5_witness :
    parse_deadline_and_days ⟨2026, 1, 1⟩ "Deadline 2/17/26" =
      (some (dateToStr ⟨2026, 2, 17⟩),
        some (max 0 ((ratadie ⟨2026, 2, 17⟩ : Int) - (ratadie ⟨2026, 1, 1⟩ : Int)))) ∧
      dateToStr ⟨2026, 2, 17⟩ = "2026-02-17" ∧
      max 0 ((ratadie ⟨2026, 2, 17⟩ : Int) - (ratadie ⟨2026, 1, 1⟩ : Int)) = 47 :=
  ⟨(c5_deadline_days ⟨2026, 1, 1⟩ "Deadline 2/17/26" (['2'], ['1', '7'], ['2', '6'])
      ⟨2026, 2, 17⟩ (by decide) (by decide) (by decide) (by decide) (by decide)).1,
    by decide, by decide⟩

lemma scanOpt_head_isSome {α : Type} (f : List Char → Option α) (cs : List Char)
    (h : (f cs).isSome = true) : (scanOpt f cs).isSome = true := by
  cases cs with
  | nil => simpa [scanOpt] using h
  | cons c t =>
    cases hf : f (c :: t) with
    | some a => simp [scanOpt, hf]
    | none => rw [hf] at h; exact absurd h (by simp)

lemma scanOpt_append_isSome {α : Type} (f : List Char → Option α) (a b : List Char)
    (hb : (scanOpt f b).isSome = true) : (scanOpt f (a ++ b)).isSome = true := by
  induction a with
  | nil => simpa using hb
  | cons c t ih =>
    cases hf : f (c :: (t ++ b)) with
    | some x => simp [scanOpt, hf]
    | none => simpa [scanOpt, hf] using ih

lemma containsSub_split (hay pat : List Char) (hc : containsSub hay pat = true) :
    ∃ pre suf, hay = pre ++ (pat ++ suf) := by
  induction hay with
  | nil =>
    refine ⟨[], [], ?_⟩
    simp only [containsSub, List.isEmpty_iff] at hc
    simp [hc]
  | cons c t ih =>
    simp only [containsSub, Bool.or_eq_true] at hc
    rcases hc with hc | hc
    · obtain ⟨suf, hsuf⟩ := List.isPrefixOf_iff_prefix.mp hc
      exact ⟨[], suf, by rw [List.nil_append, hsuf]⟩
    · obtain ⟨pre, suf, hps⟩ := ih hc
      exact ⟨c :: pre, suf, by simp [hps]⟩

lemma matchProofAt_no_lit (b : List Char) :
    matchProofAt ("no").data (("Proof Required? No").data ++ b) = some () := rfl

lemma matchProofAt_yes_lit (b : List Char) :
    matchProofAt ("yes").data (("Proof Required? Yes").data ++ b) = some () := rfl

lemma proofMatches_no_of_contains (t : String)
    (hc : strContains t "Proof Required? No" = true) : proofMatches "no" t = true := by
  obtain ⟨pre, suf, hsplit⟩ := containsSub_split t.data _ hc
  unfold proofMatches
  rw [hsplit]
  apply scanOpt_append_isSome
  apply scanOpt_head_isSome
  rw [matchProofAt_no_lit]
  rfl

lemma proofMatches_yes_of_contains (t : String)
    (hc : strContains t "Proof Required? Yes" = true) : proofMatches "yes" t = true := by
  obtain ⟨pre, suf, hsplit⟩ := containsSub_split t.data _ hc
  unfold proofMatches
  rw [hsplit]
  apply scanOpt_append_isSome
  apply scanOpt_head_isSome
  rw [matchProofAt_yes_lit]
  rfl

/-- Counterexample for C6: the "no" pattern is checked before the "yes"
pattern, so a text containing "Proof Required? Yes" does not always parse
to true. -/
theorem c6_counterexample :
    parse_proof "Proof Required? No Proof Required? Yes" = some false ∧
      strContains "Proof Required? No Proof Required? Yes" "Proof Required? Yes" = true :=
  ⟨by decide, by decide⟩

/-- C6 as amended: the proof parser is tri-state.  Every text containing
"Proof Required? No" parses to false; every text containing
"Proof Required? Yes" parses to true provided the "no" pattern does not
also match somewhere (it is checked first); when none of the three label
patterns matches (in particular when the label is absent) the result is the
single unknown state, which the "N/A" value also yields, and unknown is
distinct from false. -/
theorem c6_proof_tristate (t : String) :
    (strContains t "Proof Required? No" = true → parse_proof t = some false) ∧
      (strContains t "Proof Required? Yes" = true → proofMatches "no" t = false →
        parse_proof t = some true) ∧
      (proofMatches "no" t = false → proofMatches "yes" t = false →
        proofMatches "n/a" t = false → parse_proof t = none) ∧
      parse_proof "Proof Required? N/A" = none ∧
      (none : Option Bool) ≠ some false := by
  refine ⟨?_, ?_, ?_, by decide, by decide⟩
  · intro hc
    have ht : t ≠ "" := by
      intro he; rw [he] at hc; exact absurd hc (by decide)
    have hno := proofMatches_no_of_contains t hc
    simp [parse_proof, ht, hno]
  · intro hc hnof
    have ht : t ≠ "" := by
      intro he; rw [he] at hc; exact absurd hc (by decide)
    have hyes := proofMatches_yes_of_contains t hc
    simp [parse_proof, ht, hnof, hyes]
  · intro h1 h2 h3
    by_cases ht : t = ""
    · simp [parse_proof, ht]
    · simp [parse_proof, ht, h1, h2, h3]

/-- Witness for C6: the plain single-label texts parse to true and false. -/
theorem c6_witness :
    parse_proof "Proof Required? Yes" = some true ∧
      parse_proof "Proof Required? No" = some false :=
  ⟨(c6_proof_tristate "Proof Required? Yes").2.1 (by decide) (by decide),
    (c6_proof_tristate "Proof Required? No").1 (by decide)⟩

/-- A previously stored record as read back for the append-only policy:
its name, company and claim URL. -/
structure ExistingRef where
  name : String
  company_name : String
  claim_url : String
deriving Repr, DecidableEq

/-- Modelled from the spec: the normalized comparison key of the
append-only-new reconciliation policy, "lowercased, punctuation-stripped,
whitespace-collapsed" (spec 4.5).  The scraper variant implementing this
policy is described by the spec but its file is not under src/. -/
def norm_key (s : String) : String :=
  String.mk (pyStrip (collapseWs ((s.data.map Char.toLower).filter
    (fun c => c.isAlphanum || pyIsSpace c))))

/-- Modelled from the spec: the normalized claim URL of the append-only-new
policy, lowercased with trailing slashes stripped (spec 4.5). -/
def norm_url (s : String) : String :=
  String.mk (((s.data.map Char.toLower).reverse.dropWhile (fun c => c = '/')).reverse)

/-- Whether a new record collides with one existing record on any of the
three normalized keys. -/
def matchesExisting (e : ExistingRef) (r : Row) : Bool :=
  norm_key e.name = norm_key r.name
    || norm_key e.company_name = norm_key r.company_name
    || norm_url e.claim_url = norm_url r.claim_url

/-- Modelled from the spec: the append-only-new reconciliation policy
(spec 4.5): a new record is skipped when any of its normalized keys matches
the corresponding key of any existing record, the others are queued for
insertion, and the existing records are returned untouched. -/
def append_only_new (existing : List ExistingRef) (fresh : List Row) :
    List Row × List ExistingRef :=
  (fresh.filter (fun r => !(existing.any (fun e => matchesExisting e r))), existing)

/-- C7: under the append-only-new policy a new record whose normalized
name, company or URL matches an existing record is excluded from the
insert batch, and the existing records are never modified. -/
theorem c7_append_only_skips (existing : List ExistingRef) (fresh : List Row)
    (r : Row) (e : ExistingRef) (he : e ∈ existing)
    (hm : matchesExisting e r = true) :
    r ∉ (append_only_new existing fresh).1 ∧
      (append_only_new existing fresh).2 = existing := by
  refine ⟨?_, rfl⟩
  intro hmem
  have hpred := (List.mem_filter.mp hmem).2
  have hany : existing.any (fun x => matchesExisting x r) = true :=
    List.any_eq_true.mpr ⟨e, he, hm⟩
  rw [hany] at hpred
  exact absurd hpred (by decide)

/-- The existing record of the C7 witness. -/
def existC7 : ExistingRef :=
  ⟨"Acme Corp Data Breach Settlement", "Acme Corp", "https://acme.example.com/claim"⟩

/-- The freshly scraped record of the C7 witness: company "ACME corp."
(derived from the name before " - "), different name and URL. -/
def rowC7 : Row :=
  row_from_parsed uuid5Sim now0 "ACME corp. - Claims Data Settlement" "acme-corp-claims-data"
    "https://other.example.com/claim" "" "Varies" none none none none none none

/-- Witness for C7: company "Acme Corp" excludes the new record with
company "ACME corp." under case/punctuation-insensitive matching even
though its name and URL differ. -/
theorem c7_witness :
    rowC7 ∉ (append_only_new [existC7] [rowC7]).1 ∧
      (append_only_new [existC7] [rowC7]).2 = [existC7] ∧
      rowC7.company_name = "ACME corp." ∧
      norm_key existC7.company_name = norm_key rowC7.company_name ∧
      norm_key existC7.name ≠ norm_key rowC7.name ∧
      norm_url existC7.claim_url ≠ norm_url rowC7.claim_url :=
  ⟨(c7_append_only_skips [existC7] [rowC7] rowC7 existC7 (by decide) (by decide)).1,
    (c7_append_only_skips [existC7] [rowC7] rowC7 existC7 (by decide) (by decide)).2,
    by decide, by decide, by decide, by decide⟩

/-- Modelled from the spec: one row upsert against the store keyed on
source_id (spec 6): the stored row with the matching key is replaced by the
incoming row, otherwise the incoming row is appended. -/
def upsertRow : List Row → Row → List Row
  | [], r => [r]
  | e :: t, r => if e.source_id = r.source_id then r :: t else e :: upsertRow t r

/-- An operation issued by a run against the persistent store. -/
inductive StoreOp where
  | readExisting : StoreOp
  | upsertBatch (batch : List Row) (onConflict : String) : StoreOp
deriving Repr, DecidableEq

/-- Embeds the persistence behavior of `main` (scrape.py lines 312-329) when
connection configuration is present: with no scraped rows the run writes
nothing; otherwise it issues exactly one bulk upsert keyed on source_id; no
read of existing records is ever issued. -/
def main_ops (rows : List Row) : List StoreOp :=
  if rows = [] then [] else [StoreOp.upsertBatch rows "source_id"]

/-- Modelled from the spec: the effect of one store operation (spec 6). -/
def applyOp (store : List Row) : StoreOp → List Row
  | .readExisting => store
  | .upsertBatch batch _ => batch.foldl upsertRow store

/-- The effect of a list of store operations. -/
def applyOps (store : List Row) (ops : List StoreOp) : List Row :=
  ops.foldl applyOp store

/-- The source_id keys held by a store. -/
def keysOf (store : List Row) : List String := store.map Row.source_id

lemma mem_keys_upsertRow (s : List Row) (r : Row) (a : String)
    (ha : a ∈ keysOf (upsertRow s r)) : a ∈ keysOf s ∨ a = r.source_id := by
  induction s with
  | nil => simpa [upsertRow, keysOf] using ha
  | cons e t ih =>
    simp only [upsertRow] at ha
    split at ha
    · rename_i heq
      simp only [keysOf, List.map_cons, List.mem_cons] at ha
      rcases ha with ha | ha
      · exact Or.inr ha
      · exact Or.inl (by simp only [keysOf, List.map_cons, List.mem_cons]; exact Or.inr ha)
    · rename_i hne
      simp only [keysOf, List.map_cons, List.mem_cons] at ha
      rcases ha with ha | ha
      · exact Or.inl (by simp only [keysOf, List.map_cons, List.mem_cons]; exact Or.inl ha)
      · rcases ih ha with hb | hb
        · exact Or.inl (by simp only [keysOf, List.map_cons, List.mem_cons]; exact Or.inr hb)
        · exact Or.inr hb

lemma keys_nodup_upsertRow (s : List Row) (r : Row) (h : (keysOf s).Nodup) :
    (keysOf (upsertRow s r)).Nodup := by
  induction s with
  | nil => simp [upsertRow, keysOf]
  | cons e t ih =>
    have h1 : e.source_id ∉ keysOf t := by
      have := h
      simp only [keysOf, List.map_cons, List.nodup_cons] at this
      exact this.1
    have h2 : (keysOf t).Nodup := by
      have := h
      simp only [keysOf, List.map_cons, List.nodup_cons] at this
      exact this.2
    simp only [upsertRow]
    split
    · rename_i heq
      simp only [keysOf, List.map_cons, List.nodup_cons]
      exact ⟨heq ▸ h1, h2⟩
    · rename_i hne
      simp only [keysOf, List.map_cons, List.nodup_cons]
      refine ⟨?_, ih h2⟩
      intro hmem
      rcases mem_keys_upsertRow t r _ hmem with hb | hb
      · exact h1 hb
      · exact hne hb

lemma filter_key_nil (s : List Row) (k : String) (h : k ∉ keysOf s) :
    s.filter (fun e => e.source_id = k) = [] := by
  induction s with
  | nil => rfl
  | cons e t ih =>
    simp only [keysOf, List.map_cons, List.mem_cons, not_or] at h
    have hne : e.source_id ≠ k := fun hh => h.1 hh.symm
    simp only [List.filter_cons, hne, decide_eq_true_eq, if_neg]
    exact ih h.2

lemma filter_key_upsert_self (s : List Row) (r : Row) (h : (keysOf s).Nodup) :
    (upsertRow s r).filter (fun e => e.source_id = r.source_id) = [r] := by
  induction s with
  | nil => simp [upsertRow]
  | cons e t ih =>
    have h1 : e.source_id ∉ keysOf t := by
      have := h
      simp only [keysOf, List.map_cons, List.nodup_cons] at this
      exact this.1
    have h2 : (keysOf t).Nodup := by
      have := h
      simp only [keysOf, List.map_cons, List.nodup_cons] at this
      exact this.2
    simp only [upsertRow]
    split
    · rename_i heq
      have ht : t.filter (fun e => e.source_id = r.source_id) = [] :=
        filter_key_nil t _ (heq ▸ h1)
      simp [List.filter_cons, ht]
    · rename_i hne
      simp [List.filter_cons, hne, ih h2]

lemma filter_key_upsert_other (s : List Row) (r : Row) (k : String)
    (hk : r.source_id ≠ k) :
    (upsertRow s r).filter (fun e => e.source_id = k) =
      s.filter (fun e => e.source_id = k) := by
  induction s with
  | nil => simp [upsertRow, hk]
  | cons e t ih =>
    simp only [upsertRow]
    split
    · rename_i heq
      have he : e.source_id ≠ k := heq ▸ hk
      simp [List.filter_cons, hk, he]
    · simp [List.filter_cons, ih]

lemma foldl_upsert_nodup (l : List Row) (s : List Row) (h : (keysOf s).Nodup) :
    (keysOf (l.foldl upsertRow s)).Nodup := by
  induction l generalizing s with
  | nil => exact h
  | cons r t ih => exact ih _ (keys_nodup_upsertRow s r h)

lemma foldl_upsert_filter_other (l : List Row) (s : List Row) (k : String)
    (hk : ∀ r ∈ l, r.source_id ≠ k) :
    (l.foldl upsertRow s).filter (fun e => e.source_id = k) =
      s.filter (fun e => e.source_id = k) := by
  induction l generalizing s with
  | nil => rfl
  | cons r t ih =>
    rw [List.foldl_cons, ih _ (fun x hx => hk x (List.mem_cons_of_mem r hx)),
      filter_key_upsert_other s r k (hk r (List.mem_cons_self r t))]

/-- C8: under the upsert policy a run with scraped rows issues exactly one
write operation (a bulk upsert keyed on source_id) and no read of existing
records; consequently when a second run produces a record with an already
stored source_id, the store afterwards holds exactly one row with that key,
namely the second run's record: the write updates instead of duplicating. -/
theorem c8_upsert_converges (store rows1 rows2 : List Row) (r2 : Row)
    (hstore : (keysOf store).Nodup) (hmem : r2 ∈ rows2)
    (hnd2 : (keysOf rows2).Nodup) :
    (applyOps (applyOps store (main_ops rows1)) (main_ops rows2)).filter
        (fun e => e.source_id = r2.source_id) = [r2] ∧
      (∀ op ∈ main_ops rows2, op ≠ StoreOp.readExisting) ∧
      (main_ops rows2).length ≤ 1 := by
  have hne2 : rows2 ≠ [] := List.ne_nil_of_mem hmem
  have hs1 : (keysOf (applyOps store (main_ops rows1))).Nodup := by
    unfold main_ops applyOps
    split
    · exact hstore
    · simp only [List.foldl_cons, List.foldl_nil, applyOp]
      exact foldl_upsert_nodup rows1 store hstore
  refine ⟨?_, ?_, ?_⟩
  · obtain ⟨pre, post, rfl⟩ := List.append_of_mem hmem
    have hkeys := hnd2
    rw [keysOf, List.map_append, List.map_cons, List.nodup_append] at hkeys
    have hpostk : r2.source_id ∉ post.map Row.source_id :=
      (List.nodup_cons.mp hkeys.2.1).1
    have hpost : ∀ x ∈ post, x.source_id ≠ r2.source_id := by
      intro x hx heq
      exact hpostk (heq ▸ List.mem_map_of_mem Row.source_id hx)
    have hops : main_ops (pre ++ r2 :: post) =
        [StoreOp.upsertBatch (pre ++ r2 :: post) "source_id"] := if_neg hne2
    rw [hops]
    show ((pre ++ r2 :: post).foldl upsertRow (applyOps store (main_ops rows1))).filter
        (fun e => e.source_id = r2.source_id) = [r2]
    rw [List.foldl_append, List.foldl_cons]
    have hmid : (keysOf ((pre).foldl upsertRow (applyOps store (main_ops rows1)))).Nodup :=
      foldl_upsert_nodup pre _ hs1
    rw [foldl_upsert_filter_other post _ _ hpost, filter_key_upsert_self _ r2 hmid]
  · intro op hop
    simp only [main_ops, if_neg hne2, List.mem_singleton] at hop
    subst hop
    simp
  · simp [main_ops, hne2]

/-- First-run record of the C8 witness. -/
def rowV1 : Row :=
  row_from_parsed uuid5Sim now0 "Gamma Settlement" "gamma" "https://g.example.com/claim" ""
    "Up to $10" (some 0) (some 10) none none none none

/-- Second-run record of the C8 witness: same slug, changed payout. -/
def rowV2 : Row :=
  row_from_parsed uuid5Sim now0 "Gamma Settlement" "gamma" "https://g.example.com/claim" ""
    "Up to $20" (some 0) (some 20) none none none none

/-- Witness for C8: from an empty store, run 1 inserts the row and run 2
with the same derived source_id and a changed payout leaves exactly one
stored row for that key, the updated one. -/
theorem c8_witness :
    (applyOps (applyOps [] (main_ops [rowV1])) (main_ops [rowV2])).filter
        (fun e => e.source_id = rowV2.source_id) = [rowV2] ∧
      applyOps (applyOps [] (main_ops [rowV1])) (main_ops [rowV2]) = [rowV2] ∧
      rowV1.payout_max ≠ rowV2.payout_max :=
  ⟨(c8_upsert_converges [] [rowV1] [rowV2] rowV2 (by decide) (by decide) (by decide)).1,
    by decide, by decide⟩

/-- Counterexample for C9: the extractor never looks for the qualifying
phrase "this settlement covers"; a short text whose only qualifying
sentence carries that phrase yields no eligibility at all, where the claim
says the sentence is returned. -/
theorem c9_counterexample :
    eligibilityFromText "This settlement covers buyers of the product." = none ∧
      containsSub (("This settlement covers buyers of the product.").data.map Char.toLower)
        ("this settlement covers").data = true :=
  ⟨by decide, by decide⟩

set_option maxRecDepth 40000 in
/-- C9 as amended: the extractor splits the text on terminal punctuation
followed by whitespace and returns the first sentence containing
"you may be" or "class members" (case insensitive) with surrounding
whitespace stripped and the terminal punctuation consumed by the split;
when no sentence matches and the text is longer than 200 characters it
returns the stripped 500-character prefix, and otherwise nothing. -/
theorem c9_eligibility :
    eligibilityFromText "Other text. You may be eligible for payment. More text." =
        some "You may be eligible for payment" ∧
      eligibilityFromText "Intro. Class members are covered here. Tail." =
        some "Class members are covered here" ∧
      eligibilityFromText (String.mk (List.replicate 250 'x')) =
        some (String.mk (List.replicate 250 'x')) ∧
      eligibilityFromText (String.mk (List.replicate 600 'x')) =
        some (String.mk (List.replicate 500 'x')) ∧
      eligibilityFromText "Too short and nothing qualifying here." = none :=
  ⟨by decide, by decide, by decide, by decide, by decide⟩

end Scrape
